import Mathlib

/-!
# Pension tracking system backend — verification of the payout-scheduling core

Shallow embedding of the payout-scheduling / payment-history subsystem of
the `pension-tracking-system-backend` repository:

* `src/app/models.py` — the `Pensioner`, `SchedulePayout`, `PaymentHistory`
  and `Notification` tables;
* `src/app/admin_routes.py` — `create_schedule_payout`,
  `update_pensioner_status`, `update_pensioner_payout`,
  `get_schedule_payouts`, `get_approved_pensioners`;
* `src/app/pensioner_routes.py` — `get_payments`, `get_profile`;
* `src/app/utils.py` — `convert_to_date`, `update_released_payout`.

The database is modelled as explicit Lean state (`DB`); each route is a
function from a request and the current state to a response and the next
state.  `datetime` values are pairs of a calendar date and minutes within
the day, and comparisons mirror Python's chronological (lexicographic)
ordering.  `Decimal`/`float` amounts are modelled by `Rat`; a nullable
column is an `Option`.
-/

/-- A calendar date, as produced by `datetime.strptime(s, "%Y-%m-%d").date()`. -/
structure PDate where
  y : Nat
  m : Nat
  d : Nat
deriving DecidableEq, Repr

/-- Chronological strict order on dates (lexicographic on year, month, day —
this coincides with Python's `date` ordering). -/
def PDate.Lt (a b : PDate) : Prop :=
  a.y < b.y ∨ (a.y = b.y ∧ (a.m < b.m ∨ (a.m = b.m ∧ a.d < b.d)))

instance : DecidablePred fun p : PDate × PDate => PDate.Lt p.1 p.2 := by
  intro p; unfold PDate.Lt; infer_instance

instance (a b : PDate) : Decidable (PDate.Lt a b) := by
  unfold PDate.Lt; infer_instance

/-- A `datetime`: a date together with the minutes elapsed within that day.
A bare `date` stored into a `DateTime` column is midnight (`minutes = 0`). -/
structure PDateTime where
  date : PDate
  minutes : Nat
deriving DecidableEq, Repr

/-- Chronological strict order on datetimes, mirroring Python's `datetime`
comparison. -/
def PDateTime.Lt (a b : PDateTime) : Prop :=
  PDate.Lt a.date b.date ∨ (a.date = b.date ∧ a.minutes < b.minutes)

instance (a b : PDateTime) : Decidable (PDateTime.Lt a b) := by
  unfold PDateTime.Lt; infer_instance

/-- `datetime.date()`: project a datetime to its calendar date
(`pensioner_routes.py:224`). -/
def PDateTime.dateOf (t : PDateTime) : PDate := t.date

/-- Gregorian leap-year test, as used by Python's `datetime.date` validation. -/
def isLeap (y : Nat) : Bool := y % 4 == 0 && (y % 100 != 0 || y % 400 == 0)

/-- Number of days of month `m` in year `y` (Python `calendar` rule,
enforced by the `datetime.date` constructor). -/
def daysInMonth (y m : Nat) : Nat :=
  if m = 2 then (if isLeap y then 29 else 28)
  else if m = 4 ∨ m = 6 ∨ m = 9 ∨ m = 11 then 30
  else 31

/-- Split a character list at every occurrence of the separator — the
segment structure `strptime` sees around the literal `-` / `:` characters
of the format string. -/
def splitOnChar (c : Char) : List Char → List (List Char)
  | [] => [[]]
  | x :: xs =>
    match splitOnChar c xs with
    | [] => [[x]]
    | h :: t => if x = c then [] :: h :: t else (x :: h) :: t

/-- The numeric value of a non-empty run of ASCII decimal digits, `none`
otherwise; `acc` accumulates the high-order digits. -/
def digitsValAux : List Char → Nat → Option Nat
  | [], acc => some acc
  | c :: cs, acc =>
      if c.isDigit then digitsValAux cs (acc * 10 + (c.toNat - 48)) else none

/-- The value of a digit string (`int(...)` on a matched field). -/
def digitsVal : List Char → Option Nat
  | [] => none
  | l => digitsValAux l 0

/-- A 1-or-2-digit numeric field of `strptime`, constrained to `[lo, hi]`:
the regexes for `%m`, `%d`, `%H`, `%M` accept one or two decimal digits
whose value lies in the field's range. -/
def parseField2 (lo hi : Nat) (l : List Char) : Option Nat :=
  if 1 ≤ l.length ∧ l.length ≤ 2 then
    match digitsVal l with
    | some n => if lo ≤ n ∧ n ≤ hi then some n else none
    | none => none
  else none

/-- `utils.convert_to_date` (`utils.py:6`): `datetime.strptime(s, "%Y-%m-%d").date()`.
`%Y` is exactly four digits; `%m` and `%d` are one or two digits in range;
the `date` constructor additionally checks `1 ≤ year` and that the day
exists in the month.  `none` models the `ValueError` raised on failure. -/
def convert_to_date (s : String) : Option PDate :=
  match splitOnChar '-' s.data with
  | [ys, ms, ds] =>
    if ys.length = 4 then
      match digitsVal ys, parseField2 1 12 ms, parseField2 1 31 ds with
      | some y, some m, some d =>
          if 1 ≤ y ∧ d ≤ daysInMonth y m then some ⟨y, m, d⟩ else none
      | _, _, _ => none
    else none
  | _ => none

/-- `datetime.strptime(s, "%H:%M").time()` (`admin_routes.py:273`):
a 24-hour time of day, returned as (hour, minute). -/
def parse_hhmm (s : String) : Option (Nat × Nat) :=
  match splitOnChar ':' s.data with
  | [hs, ms] =>
    match parseField2 0 23 hs, parseField2 0 59 ms with
    | some h, some mi => some (h, mi)
    | _, _ => none
  | _ => none

/-- English month name, for `strftime("%B ...")`. -/
def monthName : Nat → String
  | 1 => "January" | 2 => "February" | 3 => "March" | 4 => "April"
  | 5 => "May" | 6 => "June" | 7 => "July" | 8 => "August"
  | 9 => "September" | 10 => "October" | 11 => "November" | 12 => "December"
  | _ => ""

/-- Zero-padded two-digit rendering of a number (`%d`, `%I`, `%M`). -/
def pad2 (n : Nat) : String := if n < 10 then "0" ++ toString n else toString n

/-- `payout_date.strftime("%B %d, %Y")` (`admin_routes.py:298`). -/
def fmtDateLong (p : PDate) : String :=
  monthName p.m ++ " " ++ pad2 p.d ++ ", " ++ toString p.y

/-- `strftime("%I:%M %p")` (`admin_routes.py:299-300`): 12-hour clock with
AM/PM marker. -/
def fmtTime12 (t : Nat × Nat) : String :=
  let h12 := if t.1 % 12 = 0 then 12 else t.1 % 12
  let ap := if t.1 < 12 then "AM" else "PM"
  pad2 h12 ++ ":" ++ pad2 t.2 ++ " " ++ ap

/-!
## Data model (`models.py`)

Presentation-only profile columns that no claim constrains (`sex`,
`contact_number`, `address`, `birthdate`, `valid_id`, `password`,
`civil_status`) are omitted from the embedding.
-/

/-- `models.Pensioner` (`models.py:7`).  `payout_amount` is a nullable
`Numeric(10,2)`; `status` defaults to `"pending"`. -/
structure Pensioner where
  id : Nat
  fullname : String
  senior_citizen_id : String
  payout_amount : Option Rat
  status : String
  created_at : PDateTime
deriving DecidableEq, Repr

/-- `models.SchedulePayout` (`models.py:136`).  `payout_date` is a
`DateTime` column; `status` defaults to `"scheduled"`. -/
structure SchedulePayout where
  schedule_id : Nat
  payout_date : PDateTime
  payout_location : String
  status : String
  start_time : Nat × Nat
  end_time : Nat × Nat
deriving DecidableEq, Repr

/-- `models.PaymentHistory` (`models.py:150`).  `payout_amount` is declared
`Float, nullable=False`; the session-level value copied from the pensioner
may nevertheless be `None`, which the database rejects at commit time, so
the field is an `Option` here with the NOT NULL constraint enforced by the
modelled commit. -/
structure PaymentHistory where
  id : Nat
  pensioner_id : Nat
  schedule_id : Nat
  payout_amount : Option Rat
  status : String
deriving DecidableEq, Repr

/-- `models.Notification` (`models.py:164`).  `from_schedule` is a ghost
field recording which schedule's fan-out created the row; the source table
has no schedule column, so this only names the creation event and is never
read by any modelled route. -/
structure Notification where
  id : Nat
  pensioner_id : Nat
  message : String
  location : String
  time : String
  date : PDateTime
  from_schedule : Nat
deriving DecidableEq, Repr

/-- The committed database state, with the auto-increment counters for the
integer primary keys. -/
structure DB where
  pensioners : List Pensioner
  schedules : List SchedulePayout
  payments : List PaymentHistory
  notifications : List Notification
  nextScheduleId : Nat
  nextPaymentId : Nat
  nextNotificationId : Nat
deriving DecidableEq, Repr

/-- Well-formedness of a database state: pensioner primary keys are
distinct, and every stored schedule id (including foreign keys and the
notification ghost field) is below the auto-increment counter. -/
def DB.WF (db : DB) : Prop :=
  (db.pensioners.map Pensioner.id).Nodup ∧
  (∀ s ∈ db.schedules, s.schedule_id < db.nextScheduleId) ∧
  (∀ r ∈ db.payments, r.schedule_id < db.nextScheduleId) ∧
  (∀ n ∈ db.notifications, n.from_schedule < db.nextScheduleId)

instance (db : DB) : Decidable db.WF := by
  unfold DB.WF; infer_instance

/-!
## Routes

Each route is a function from request data and the committed database
state to a response and the next committed state.  The ambient
authenticated principal is modelled by calling the admin routes only in
their admin-authorized branch (except where the role check matters to a
claim).  `ORDER BY` clauses are omitted: they only permute the result
lists and every claim quantifies over membership.
-/

/-- The JSON body of `POST /schedule-payout`; `none` models an absent key. -/
structure ScheduleRequest where
  payout_date : Option String
  payout_location : Option String
  start_time : Option String
  end_time : Option String
deriving DecidableEq, Repr

/-- Outcome of `create_schedule_payout`: HTTP 201 with the new id, HTTP 400
(missing field or `ValueError` from parsing), or an uncaught persistence
exception surfacing as HTTP 500. -/
inductive CreateScheduleResult
  | created (schedule_id : Nat)
  | badRequest
  | serverError
deriving DecidableEq, Repr

/-- The fan-out `PaymentHistory` rows built in the loop at
`admin_routes.py:288-295`, one per approved pensioner, each copying the
pensioner's current `payout_amount`; `k` is the next auto-increment id. -/
def mkPayments (sid : Nat) : Nat → List Pensioner → List PaymentHistory
  | _, [] => []
  | k, p :: ps =>
      { id := k, pensioner_id := p.id, schedule_id := sid,
        payout_amount := p.payout_amount, status := "scheduled" }
        :: mkPayments sid (k + 1) ps

/-- The fan-out `Notification` rows built at `admin_routes.py:297-310`. -/
def mkNotifications (sid : Nat) (pd : PDate) (loc : String) (st et : Nat × Nat) :
    Nat → List Pensioner → List Notification
  | _, [] => []
  | k, p :: ps =>
      { id := k, pensioner_id := p.id,
        message := "Your next pension payment is scheduled for " ++ fmtDateLong pd
          ++ " at " ++ loc ++ " from "
          ++ (fmtTime12 st ++ " - " ++ fmtTime12 et) ++ ".",
        location := loc,
        time := fmtTime12 st ++ " - " ++ fmtTime12 et,
        date := ⟨pd, 0⟩, from_schedule := sid }
        :: mkNotifications sid pd loc st et (k + 1) ps

/-- `admin_routes.create_schedule_payout` (`admin_routes.py:259-319`), in its
admin-authorized branch.  The source commits the `SchedulePayout` row on its
own (`admin_routes.py:283-284`) and only then fans out and commits again
(`admin_routes.py:312`); the `except` clause catches only `ValueError`
(`admin_routes.py:318`), so a failure of the second commit — e.g. the
NOT NULL constraint on `payment_history.payout_amount` rejecting a null
amount copied from an approved pensioner — leaves the first commit in
place and escapes as a server error. -/
def create_schedule_payout (req : ScheduleRequest) (db : DB) :
    CreateScheduleResult × DB :=
  match req.payout_date with
  | none => (.badRequest, db)
  | some pd_s =>
  match req.payout_location with
  | none => (.badRequest, db)
  | some loc =>
  match req.start_time with
  | none => (.badRequest, db)
  | some st_s =>
  match req.end_time with
  | none => (.badRequest, db)
  | some et_s =>
  match convert_to_date pd_s, parse_hhmm st_s, parse_hhmm et_s with
  | some pd, some st, some et =>
      let schedule : SchedulePayout :=
        { schedule_id := db.nextScheduleId, payout_date := ⟨pd, 0⟩,
          payout_location := loc, status := "scheduled",
          start_time := st, end_time := et }
      let db1 : DB := { db with schedules := db.schedules ++ [schedule],
                                nextScheduleId := db.nextScheduleId + 1 }
      let approved := db.pensioners.filter (fun p => p.status == "approved")
      let newPayments := mkPayments schedule.schedule_id db.nextPaymentId approved
      let newNotifs :=
        mkNotifications schedule.schedule_id pd loc st et db.nextNotificationId approved
      if newPayments.all (fun r => r.payout_amount.isSome) then
        (.created schedule.schedule_id,
         { db1 with payments := db1.payments ++ newPayments,
                    notifications := db1.notifications ++ newNotifs,
                    nextPaymentId := db.nextPaymentId + newPayments.length,
                    nextNotificationId := db.nextNotificationId + newNotifs.length })
      else
        (.serverError, db1)
  | _, _, _ => (.badRequest, db)

/-- The JSON body of `PUT /pensioners/<id>/status`.  For `payout_amount`,
`none` models an absent key, `some none` a present value that
`float(...)` rejects with `ValueError`, and `some (some q)` a value
parsing to `q`. -/
structure StatusRequest where
  status : Option String
  payout_amount : Option (Option Rat)
deriving DecidableEq, Repr

/-- Outcome of the two pensioner-update routes. -/
inductive UpdateResult
  | ok
  | notFound
  | badRequest
deriving DecidableEq, Repr

/-- `admin_routes.update_pensioner_status` (`admin_routes.py:181-222`), in
its admin-authorized branch.  Session-level attribute writes preceding an
early 400 return are never committed (request teardown discards them), so
an error path leaves the database unchanged.  Every success path executes
`pensioner.created_at = date.today()` (`admin_routes.py:211`) before the
commit; the stored date is midnight of `today` in the `DateTime` column. -/
def update_pensioner_status (today : PDate) (pensioner_id : Nat)
    (req : StatusRequest) (db : DB) : UpdateResult × DB :=
  match db.pensioners.find? (fun p => p.id == pensioner_id) with
  | none => (.notFound, db)
  | some _ =>
    match req.status with
    | none => (.badRequest, db)
    | some st =>
      if st = "pending" ∨ st = "approved" ∨ st = "rejected" then
        match (if st = "approved" then req.payout_amount else none) with
        | some none => (.badRequest, db)
        | amt =>
          (.ok, { db with pensioners := db.pensioners.map (fun p =>
            if p.id == pensioner_id then
              { p with status := st,
                       payout_amount := match amt with
                         | some (some q) => some q
                         | _ => p.payout_amount,
                       created_at := ⟨today, 0⟩ }
            else p) })
      else (.badRequest, db)

/-- `admin_routes.update_pensioner_payout` (`admin_routes.py:226-252`), in
its admin-authorized branch; `payout_amount` is encoded as in
`StatusRequest`. -/
def update_pensioner_payout (pensioner_id : Nat)
    (payout_amount : Option (Option Rat)) (db : DB) : UpdateResult × DB :=
  match db.pensioners.find? (fun p => p.id == pensioner_id) with
  | none => (.notFound, db)
  | some _ =>
    match payout_amount with
    | none => (.badRequest, db)
    | some none => (.badRequest, db)
    | some (some q) =>
      (.ok, { db with pensioners := db.pensioners.map (fun p =>
        if p.id == pensioner_id then { p with payout_amount := some q } else p) })

/-- `utils.update_released_payout` (`utils.py:9-23`).  Queries every
`SchedulePayout` with `payout_date < now` (with no filter on the current
status), marks each `released`, and commits iff that query result is
non-empty.  `commitFails` injects a persistence failure: the handler
catches it, rolls the session back and only logs, so the caller observes
an unchanged state and no exception.  Returns the next state and whether
`db.session.commit()` was invoked (and succeeded). -/
def update_released_payout (now : PDateTime) (commitFails : Bool) (db : DB) :
    DB × Bool :=
  let released_payout := db.schedules.filter
    (fun s => decide (PDateTime.Lt s.payout_date now))
  if released_payout.isEmpty then (db, false)
  else if commitFails then (db, false)
  else
    ({ db with schedules := db.schedules.map (fun s =>
         if PDateTime.Lt s.payout_date now then { s with status := "released" } else s) },
     true)

/-- One element of the `GET /payments-history` response
(`pensioner_routes.py:227-236`).  `payout_date` keeps the date value that
the source renders with `strftime("%Y-%m-%d")`; `payout_amount` is the
stored snapshot passed through `float(...)` (modelled as the identity on
non-null values — every committed row is non-null by the NOT NULL
constraint). -/
structure PaymentEntry where
  id : Nat
  schedule_id : Nat
  status : String
  payout_date : PDate
  payout_location : String
  payout_amount : Option Rat
  start_time : Nat × Nat
  end_time : Nat × Nat
deriving DecidableEq, Repr

/-- `pensioner_routes.get_payments` (`pensioner_routes.py:205-238`), in its
pensioner-authorized branch; `none` is the 404 branch.  Rows are joined to
their parent `SchedulePayout`; the emitted `status` is
`"scheduled" if payout_date > today else "released"`
(`pensioner_routes.py:225`), comparing calendar dates, and the emitted
amount is the row's stored snapshot, not the pensioner's current amount. -/
def get_payments (today : PDate) (pensioner_id : Nat) (db : DB) :
    Option (List PaymentEntry) :=
  match db.pensioners.find? (fun p => p.id == pensioner_id) with
  | none => none
  | some _ => some <|
    (db.payments.filter (fun r => r.pensioner_id == pensioner_id)).filterMap
      (fun r => (db.schedules.find? (fun s => s.schedule_id == r.schedule_id)).map
        (fun s =>
          { id := r.id, schedule_id := r.schedule_id,
            status := if PDate.Lt today s.payout_date.dateOf
                      then "scheduled" else "released",
            payout_date := s.payout_date.dateOf,
            payout_location := s.payout_location,
            payout_amount := r.payout_amount,
            start_time := s.start_time, end_time := s.end_time }))

/-- One element of the `GET /schedule-payout` admin listing
(`admin_routes.py:336-344`). -/
structure SchedEntry where
  schedule_id : Nat
  payout_date : PDate
  payout_location : String
  start_time : Nat × Nat
  status : String
  total_pensioners : Nat
  end_time : Nat × Nat
deriving DecidableEq, Repr

/-- Outcome of an authenticated listing route: 403 or a 200 listing. -/
inductive ListResult (α : Type)
  | forbidden
  | listing (entries : List α)
deriving DecidableEq, Repr

/-- `admin_routes.get_schedule_payouts` (`admin_routes.py:323-346`).  The
reconciler runs first (`admin_routes.py:326`), before even the role check;
a reconciliation failure is swallowed inside `update_released_payout` and
the read then proceeds normally over the (unchanged) state. -/
def get_schedule_payouts (now : PDateTime) (isAdmin : Bool)
    (reconcileCommitFails : Bool) (db : DB) : ListResult SchedEntry × DB :=
  let db1 := (update_released_payout now reconcileCommitFails db).1
  if isAdmin then
    (.listing (db1.schedules.map (fun s =>
      { schedule_id := s.schedule_id, payout_date := s.payout_date.dateOf,
        payout_location := s.payout_location, start_time := s.start_time,
        status := s.status, total_pensioners := db1.pensioners.length,
        end_time := s.end_time })), db1)
  else (.forbidden, db1)

/-- The Python truthiness serialization
`float(x) if x else None` used for `payout_amount` at
`admin_routes.py:143`, `pensioner_routes.py:160` and `models.py:81`:
both `None` and a zero `Decimal` are falsy, so a stored zero is emitted
as null and a number is emitted only for a non-null, non-zero amount. -/
def floatIfTruthy (a : Option Rat) : Option Rat :=
  match a with
  | none => none
  | some x => if x = 0 then none else some x

/-- The `payout_amount`-relevant part of a serialized pensioner, common to
the profile read and the admin listings. -/
structure ProfileEntry where
  id : Nat
  fullname : String
  senior_citizen_id : String
  payout_amount : Option Rat
  status : String
deriving DecidableEq, Repr

/-- `pensioner_routes.get_profile` (`pensioner_routes.py:133-163`), in its
pensioner-authorized branch; `none` is the 404 branch. -/
def get_profile (pensioner_id : Nat) (db : DB) : Option ProfileEntry :=
  (db.pensioners.find? (fun p => p.id == pensioner_id)).map (fun p =>
    { id := p.id, fullname := p.fullname,
      senior_citizen_id := p.senior_citizen_id,
      payout_amount := floatIfTruthy p.payout_amount, status := p.status })

/-- `admin_routes.get_approved_pensioners` (`admin_routes.py:120-149`), in
its admin-authorized branch. -/
def get_approved_pensioners (db : DB) : List ProfileEntry :=
  (db.pensioners.filter (fun p => p.status == "approved")).map (fun p =>
    { id := p.id, fullname := p.fullname,
      senior_citizen_id := p.senior_citizen_id,
      payout_amount := floatIfTruthy p.payout_amount, status := p.status })

/-!
## Operation traces

The state-mutating operations of the system, for the invariants that
quantify over everything that can happen after a schedule is created.
-/

/-- A state-mutating request: schedule creation, the two pensioner
updates, or a read-triggered reconciliation pass. -/
inductive AdminOp
  | createSchedule (req : ScheduleRequest)
  | updateStatus (today : PDate) (pensioner_id : Nat) (req : StatusRequest)
  | updatePayout (pensioner_id : Nat) (payout_amount : Option (Option Rat))
  | reconcile (now : PDateTime) (commitFails : Bool)
deriving DecidableEq, Repr

/-- The state transition of one operation (responses discarded). -/
def AdminOp.apply : AdminOp → DB → DB
  | .createSchedule req, db => (create_schedule_payout req db).2
  | .updateStatus today pid req, db => (update_pensioner_status today pid req db).2
  | .updatePayout pid amt, db => (update_pensioner_payout pid amt db).2
  | .reconcile now cf, db => (update_released_payout now cf db).1

/-- Run a sequence of operations from a state. -/
def execOps (ops : List AdminOp) (db : DB) : DB :=
  ops.foldl (fun s op => op.apply s) db

/-- Reflexive closure of the date order: `a` is on or before `b`. -/
def PDate.Le (a b : PDate) : Prop := PDate.Lt a b ∨ a = b

instance (a b : PDate) : Decidable (PDate.Le a b) := by
  unfold PDate.Le; infer_instance

/-- Whether an operation is one of the two pensioner-update routes
(`update_pensioner_status` / `update_pensioner_payout`). -/
def AdminOp.isPensionerUpdate : AdminOp → Bool
  | .updateStatus _ _ _ => true
  | .updatePayout _ _ => true
  | _ => false

/-- The entries of a listing response (empty for a 403). -/
def ListResult.entries : ListResult α → List α
  | .forbidden => []
  | .listing es => es

/-!
## Concrete sample data

A small population and request used to instantiate the theorems on
concrete inputs: one approved pensioner with a positive amount, one
pending pensioner, one approved pensioner with a zero amount (the
spec's §8 scenario), and separately one approved pensioner whose
amount was never set. -/

def samplePensionerA : Pensioner :=
  { id := 1, fullname := "Juan Dela Cruz", senior_citizen_id := "SC-001",
    payout_amount := some 1000, status := "approved",
    created_at := ⟨⟨2024, 1, 1⟩, 540⟩ }

def samplePensionerB : Pensioner :=
  { id := 2, fullname := "Maria Clara", senior_citizen_id := "SC-002",
    payout_amount := none, status := "pending",
    created_at := ⟨⟨2024, 1, 2⟩, 540⟩ }

def samplePensionerC : Pensioner :=
  { id := 3, fullname := "Jose Rizal", senior_citizen_id := "SC-003",
    payout_amount := some 0, status := "approved",
    created_at := ⟨⟨2024, 1, 3⟩, 540⟩ }

def sampleDB : DB :=
  { pensioners := [samplePensionerA, samplePensionerB, samplePensionerC],
    schedules := [], payments := [], notifications := [],
    nextScheduleId := 1, nextPaymentId := 1, nextNotificationId := 1 }

def sampleReq : ScheduleRequest :=
  { payout_date := some "2025-01-10", payout_location := some "Town Hall",
    start_time := some "09:00", end_time := some "12:00" }

/-- The state after successfully creating the sample schedule. -/
def sampleDB1 : DB := (create_schedule_payout sampleReq sampleDB).2

/-- A moment one minute past midnight of the sample payout date. -/
def sampleNow : PDateTime := ⟨⟨2025, 1, 10⟩, 1⟩

/-- The state after one reconciliation pass over `sampleDB1`. -/
def sampleReconciled : DB := (update_released_payout sampleNow false sampleDB1).1

/-- An approved pensioner whose `payout_amount` was never set: the value
copied into the fan-out `PaymentHistory` row is `None`, which the NOT NULL
constraint rejects at the second commit. -/
def nullAmountPensioner : Pensioner :=
  { id := 4, fullname := "Andres Bonifacio", senior_citizen_id := "SC-004",
    payout_amount := none, status := "approved",
    created_at := ⟨⟨2024, 1, 4⟩, 540⟩ }

def nullAmountDB : DB :=
  { pensioners := [nullAmountPensioner],
    schedules := [], payments := [], notifications := [],
    nextScheduleId := 1, nextPaymentId := 1, nextNotificationId := 1 }

/-- A malformed schedule request: month 13 does not parse. -/
def badDateReq : ScheduleRequest :=
  { payout_date := some "2025-13-01", payout_location := some "Town Hall",
    start_time := some "09:00", end_time := some "12:00" }

/-!
## Helper lemmas
-/

theorem PDate.not_lt_iff_le (a b : PDate) : ¬ PDate.Lt a b ↔ PDate.Le b a := by
  obtain ⟨y1, m1, d1⟩ := a
  obtain ⟨y2, m2, d2⟩ := b
  simp only [PDate.Lt, PDate.Le, PDate.mk.injEq]
  omega

theorem mkPayments_length (sid k : Nat) (ps : List Pensioner) :
    (mkPayments sid k ps).length = ps.length := by
  induction ps generalizing k with
  | nil => rfl
  | cons p ps ih => simp [mkPayments, ih]

theorem mem_mkPayments {sid k : Nat} {ps : List Pensioner} {r : PaymentHistory}
    (h : r ∈ mkPayments sid k ps) :
    ∃ p ∈ ps, r.pensioner_id = p.id ∧ r.schedule_id = sid ∧
      r.payout_amount = p.payout_amount ∧ r.status = "scheduled" := by
  induction ps generalizing k with
  | nil => cases h
  | cons p ps ih =>
    rcases List.mem_cons.mp h with h1 | h2
    · exact ⟨p, List.mem_cons_self p ps, by subst h1; exact ⟨rfl, rfl, rfl, rfl⟩⟩
    · obtain ⟨q, hq, hprops⟩ := ih h2
      exact ⟨q, List.mem_cons_of_mem p hq, hprops⟩

theorem mkPayments_exists {sid : Nat} {ps : List Pensioner} {p : Pensioner}
    (h : p ∈ ps) (k : Nat) :
    ∃ r ∈ mkPayments sid k ps, r.pensioner_id = p.id ∧ r.schedule_id = sid ∧
      r.payout_amount = p.payout_amount := by
  induction ps generalizing k with
  | nil => cases h
  | cons q ps ih =>
    rcases List.mem_cons.mp h with h1 | h2
    · subst h1
      exact ⟨_, List.mem_cons_self _ _, rfl, rfl, rfl⟩
    · obtain ⟨r, hr, hp⟩ := ih h2 (k + 1)
      exact ⟨r, List.mem_cons_of_mem _ hr, hp⟩

theorem mkNotifications_length (sid : Nat) (pd : PDate) (loc : String)
    (st et : Nat × Nat) (k : Nat) (ps : List Pensioner) :
    (mkNotifications sid pd loc st et k ps).length = ps.length := by
  induction ps generalizing k with
  | nil => rfl
  | cons p ps ih => simp [mkNotifications, ih]

theorem mem_mkNotifications {sid : Nat} {pd : PDate} {loc : String}
    {st et : Nat × Nat} {k : Nat} {ps : List Pensioner} {n : Notification}
    (h : n ∈ mkNotifications sid pd loc st et k ps) :
    ∃ p ∈ ps, n.pensioner_id = p.id ∧ n.from_schedule = sid := by
  induction ps generalizing k with
  | nil => cases h
  | cons p ps ih =>
    rcases List.mem_cons.mp h with h1 | h2
    · exact ⟨p, List.mem_cons_self p ps, by subst h1; exact ⟨rfl, rfl⟩⟩
    · obtain ⟨q, hq, hprops⟩ := ih h2
      exact ⟨q, List.mem_cons_of_mem p hq, hprops⟩

theorem update_pensioner_status_frame (today : PDate) (pid : Nat)
    (req : StatusRequest) (db : DB) :
    (update_pensioner_status today pid req db).2.payments = db.payments ∧
    (update_pensioner_status today pid req db).2.notifications = db.notifications ∧
    (update_pensioner_status today pid req db).2.schedules = db.schedules ∧
    (update_pensioner_status today pid req db).2.nextScheduleId = db.nextScheduleId ∧
    (update_pensioner_status today pid req db).2.pensioners.map Pensioner.id =
      db.pensioners.map Pensioner.id := by
  unfold update_pensioner_status
  repeat' split
  all_goals refine ⟨rfl, rfl, rfl, rfl, ?_⟩
  all_goals try rfl
  all_goals
    simp only [List.map_map]
    exact List.map_congr_left (fun p _ => by
      simp only [Function.comp_apply]
      split <;> rfl)

theorem update_pensioner_payout_frame (pid : Nat)
    (amt : Option (Option Rat)) (db : DB) :
    (update_pensioner_payout pid amt db).2.payments = db.payments ∧
    (update_pensioner_payout pid amt db).2.notifications = db.notifications ∧
    (update_pensioner_payout pid amt db).2.schedules = db.schedules ∧
    (update_pensioner_payout pid amt db).2.nextScheduleId = db.nextScheduleId ∧
    (update_pensioner_payout pid amt db).2.pensioners.map Pensioner.id =
      db.pensioners.map Pensioner.id := by
  unfold update_pensioner_payout
  repeat' split
  all_goals refine ⟨rfl, rfl, rfl, rfl, ?_⟩
  all_goals try rfl
  all_goals
    simp only [List.map_map]
    exact List.map_congr_left (fun p _ => by
      simp only [Function.comp_apply]
      split <;> rfl)

theorem update_released_payout_frame (now : PDateTime) (cf : Bool) (db : DB) :
    (update_released_payout now cf db).1.payments = db.payments ∧
    (update_released_payout now cf db).1.notifications = db.notifications ∧
    (update_released_payout now cf db).1.pensioners = db.pensioners ∧
    (update_released_payout now cf db).1.nextScheduleId = db.nextScheduleId ∧
    ∀ s ∈ (update_released_payout now cf db).1.schedules,
      ∃ s0 ∈ db.schedules, s.schedule_id = s0.schedule_id := by
  simp only [update_released_payout]
  by_cases h1 : (List.filter (fun s => decide (PDateTime.Lt s.payout_date now))
      db.schedules).isEmpty = true
  · rw [if_pos h1]
    exact ⟨rfl, rfl, rfl, rfl, fun s hs => ⟨s, hs, rfl⟩⟩
  · rw [if_neg h1]
    cases cf with
    | true =>
      rw [if_pos rfl]
      exact ⟨rfl, rfl, rfl, rfl, fun s hs => ⟨s, hs, rfl⟩⟩
    | false =>
      rw [if_neg Bool.false_ne_true]
      refine ⟨rfl, rfl, rfl, rfl, fun s hs => ?_⟩
      obtain ⟨s0, hs0, hfs⟩ := List.mem_map.mp hs
      refine ⟨s0, hs0, ?_⟩
      subst hfs
      split <;> rfl

theorem create_schedule_payout_created {req : ScheduleRequest} {db db' : DB}
    {sid : Nat} (h : create_schedule_payout req db = (.created sid, db')) :
    sid = db.nextScheduleId ∧
    ∃ pd loc st et,
      (∃ s, req.payout_date = some s ∧ convert_to_date s = some pd) ∧
      req.payout_location = some loc ∧
      (∃ s, req.start_time = some s ∧ parse_hhmm s = some st) ∧
      (∃ s, req.end_time = some s ∧ parse_hhmm s = some et) ∧
      db' = { db with
        schedules := db.schedules ++
          [{ schedule_id := db.nextScheduleId, payout_date := ⟨pd, 0⟩,
             payout_location := loc, status := "scheduled",
             start_time := st, end_time := et }],
        payments := db.payments ++
          mkPayments db.nextScheduleId db.nextPaymentId
            (db.pensioners.filter (fun p => p.status == "approved")),
        notifications := db.notifications ++
          mkNotifications db.nextScheduleId pd loc st et db.nextNotificationId
            (db.pensioners.filter (fun p => p.status == "approved")),
        nextScheduleId := db.nextScheduleId + 1,
        nextPaymentId := db.nextPaymentId +
          (mkPayments db.nextScheduleId db.nextPaymentId
            (db.pensioners.filter (fun p => p.status == "approved"))).length,
        nextNotificationId := db.nextNotificationId +
          (mkNotifications db.nextScheduleId pd loc st et db.nextNotificationId
            (db.pensioners.filter (fun p => p.status == "approved"))).length } := by
  obtain ⟨pdo, loco, sto, eto⟩ := req
  cases pdo with
  | none => simp [create_schedule_payout] at h
  | some pd_s =>
  cases loco with
  | none => simp [create_schedule_payout] at h
  | some loc =>
  cases sto with
  | none => simp [create_schedule_payout] at h
  | some st_s =>
  cases eto with
  | none => simp [create_schedule_payout] at h
  | some et_s =>
  simp only [create_schedule_payout] at h
  cases hc : convert_to_date pd_s with
  | none => simp only [hc] at h; simp at h
  | some pd =>
  cases hs : parse_hhmm st_s with
  | none => simp only [hc, hs] at h; simp at h
  | some st =>
  cases he : parse_hhmm et_s with
  | none => simp only [hc, hs, he] at h; simp at h
  | some et =>
  simp only [hc, hs, he] at h
  split at h
  · injection h with h1 h2
    injection h1 with h1
    subst h1
    subst h2
    exact ⟨rfl, pd, loc, st, et, ⟨pd_s, rfl, hc⟩, rfl,
      ⟨st_s, rfl, hs⟩, ⟨et_s, rfl, he⟩, rfl⟩
  · simp at h

theorem create_schedule_payout_state (req : ScheduleRequest) (db : DB) :
    (create_schedule_payout req db).2 = db ∨
    ((create_schedule_payout req db).2.pensioners = db.pensioners ∧
     (create_schedule_payout req db).2.nextScheduleId = db.nextScheduleId + 1 ∧
     (∀ s ∈ (create_schedule_payout req db).2.schedules,
        s ∈ db.schedules ∨ s.schedule_id = db.nextScheduleId) ∧
     (∀ r ∈ (create_schedule_payout req db).2.payments,
        r ∈ db.payments ∨ r.schedule_id = db.nextScheduleId) ∧
     (∀ n ∈ (create_schedule_payout req db).2.notifications,
        n ∈ db.notifications ∨ n.from_schedule = db.nextScheduleId)) := by
  obtain ⟨pdo, loco, sto, eto⟩ := req
  cases pdo with
  | none => exact Or.inl rfl
  | some pd_s =>
  cases loco with
  | none => exact Or.inl rfl
  | some loc =>
  cases sto with
  | none => exact Or.inl rfl
  | some st_s =>
  cases eto with
  | none => exact Or.inl rfl
  | some et_s =>
  simp only [create_schedule_payout]
  cases hc : convert_to_date pd_s with
  | none => exact Or.inl rfl
  | some pd =>
  cases hs : parse_hhmm st_s with
  | none => exact Or.inl rfl
  | some st =>
  cases he : parse_hhmm et_s with
  | none => exact Or.inl rfl
  | some et =>
  simp only [hc, hs, he]
  refine Or.inr ?_
  by_cases hall : ((mkPayments db.nextScheduleId db.nextPaymentId
      (db.pensioners.filter (fun p => p.status == "approved"))).all
        (fun r => r.payout_amount.isSome)) = true
  · rw [if_pos hall]
    refine ⟨rfl, rfl, ?_, ?_, ?_⟩
    · intro s hs1
      rcases List.mem_append.mp hs1 with h1 | h1
      · exact Or.inl h1
      · rcases List.mem_singleton.mp h1 with rfl
        exact Or.inr rfl
    · intro r hr
      rcases List.mem_append.mp hr with h1 | h1
      · exact Or.inl h1
      · obtain ⟨p, _, _, hsid, _, _⟩ := mem_mkPayments h1
        exact Or.inr hsid
    · intro n hn
      rcases List.mem_append.mp hn with h1 | h1
      · exact Or.inl h1
      · obtain ⟨p, _, _, hsid⟩ := mem_mkNotifications h1
        exact Or.inr hsid
  · rw [if_neg hall]
    refine ⟨rfl, rfl, ?_, fun r hr => Or.inl hr, fun n hn => Or.inl hn⟩
    intro s hs1
    rcases List.mem_append.mp hs1 with h1 | h1
    · exact Or.inl h1
    · rcases List.mem_singleton.mp h1 with rfl
      exact Or.inr rfl

theorem apply_preserves_inv {sid pid : Nat} (op : AdminOp) (s : DB)
    (hwf : s.WF) (hlt : sid < s.nextScheduleId)
    (hpay : ∀ r ∈ s.payments, r.pensioner_id = pid → r.schedule_id ≠ sid)
    (hnot : ∀ n ∈ s.notifications, n.pensioner_id = pid → n.from_schedule ≠ sid) :
    (op.apply s).WF ∧ sid < (op.apply s).nextScheduleId ∧
    (∀ r ∈ (op.apply s).payments, r.pensioner_id = pid → r.schedule_id ≠ sid) ∧
    (∀ n ∈ (op.apply s).notifications, n.pensioner_id = pid → n.from_schedule ≠ sid) := by
  obtain ⟨hnd, hsch, hpid, hnid⟩ := hwf
  cases op with
  | updateStatus today pid' req =>
    obtain ⟨f1, f2, f3, f4, f5⟩ := update_pensioner_status_frame today pid' req s
    simp only [AdminOp.apply]
    refine ⟨⟨?_, ?_, ?_, ?_⟩, ?_, ?_, ?_⟩
    · rw [f5]; exact hnd
    · rw [f3, f4]; exact hsch
    · rw [f1, f4]; exact hpid
    · rw [f2, f4]; exact hnid
    · rw [f4]; exact hlt
    · rw [f1]; exact hpay
    · rw [f2]; exact hnot
  | updatePayout pid' amt =>
    obtain ⟨f1, f2, f3, f4, f5⟩ := update_pensioner_payout_frame pid' amt s
    simp only [AdminOp.apply]
    refine ⟨⟨?_, ?_, ?_, ?_⟩, ?_, ?_, ?_⟩
    · rw [f5]; exact hnd
    · rw [f3, f4]; exact hsch
    · rw [f1, f4]; exact hpid
    · rw [f2, f4]; exact hnid
    · rw [f4]; exact hlt
    · rw [f1]; exact hpay
    · rw [f2]; exact hnot
  | reconcile now cf =>
    obtain ⟨f1, f2, f3, f4, f5⟩ := update_released_payout_frame now cf s
    simp only [AdminOp.apply]
    refine ⟨⟨?_, ?_, ?_, ?_⟩, ?_, ?_, ?_⟩
    · rw [f3]; exact hnd
    · intro sc hsc
      obtain ⟨s0, hs0, hid⟩ := f5 sc hsc
      rw [f4, hid]
      exact hsch s0 hs0
    · rw [f1, f4]; exact hpid
    · rw [f2, f4]; exact hnid
    · rw [f4]; exact hlt
    · rw [f1]; exact hpay
    · rw [f2]; exact hnot
  | createSchedule req =>
    simp only [AdminOp.apply]
    rcases create_schedule_payout_state req s with heq | ⟨g1, g2, g3, g4, g5⟩
    · rw [heq]
      exact ⟨⟨hnd, hsch, hpid, hnid⟩, hlt, hpay, hnot⟩
    · refine ⟨⟨?_, ?_, ?_, ?_⟩, ?_, ?_, ?_⟩
      · rw [g1]; exact hnd
      · intro sc hsc
        rw [g2]
        rcases g3 sc hsc with h1 | h1
        · exact Nat.lt_succ_of_lt (hsch sc h1)
        · rw [h1]; exact Nat.lt_succ_self _
      · intro r hr
        rw [g2]
        rcases g4 r hr with h1 | h1
        · exact Nat.lt_succ_of_lt (hpid r h1)
        · rw [h1]; exact Nat.lt_succ_self _
      · intro n hn
        rw [g2]
        rcases g5 n hn with h1 | h1
        · exact Nat.lt_succ_of_lt (hnid n h1)
        · rw [h1]; exact Nat.lt_succ_self _
      · rw [g2]; exact Nat.lt_succ_of_lt hlt
      · intro r hr hrp
        rcases g4 r hr with h1 | h1
        · exact hpay r h1 hrp
        · rw [h1]; exact Nat.ne_of_gt hlt
      · intro n hn hnp
        rcases g5 n hn with h1 | h1
        · exact hnot n h1 hnp
        · rw [h1]; exact Nat.ne_of_gt hlt

theorem execOps_preserves_inv {sid pid : Nat} (ops : List AdminOp) :
    ∀ s : DB, s.WF → sid < s.nextScheduleId →
    (∀ r ∈ s.payments, r.pensioner_id = pid → r.schedule_id ≠ sid) →
    (∀ n ∈ s.notifications, n.pensioner_id = pid → n.from_schedule ≠ sid) →
    (execOps ops s).WF ∧ sid < (execOps ops s).nextScheduleId ∧
    (∀ r ∈ (execOps ops s).payments, r.pensioner_id = pid → r.schedule_id ≠ sid) ∧
    (∀ n ∈ (execOps ops s).notifications,
      n.pensioner_id = pid → n.from_schedule ≠ sid) := by
  induction ops with
  | nil => exact fun s hwf hlt hpay hnot => ⟨hwf, hlt, hpay, hnot⟩
  | cons op ops ih =>
    intro s hwf hlt hpay hnot
    obtain ⟨h1, h2, h3, h4⟩ := apply_preserves_inv op s hwf hlt hpay hnot
    exact ih (op.apply s) h1 h2 h3 h4

theorem execOps_update_frame (ops : List AdminOp) :
    ∀ s : DB, (∀ op ∈ ops, op.isPensionerUpdate = true) →
    (execOps ops s).payments = s.payments ∧
    (execOps ops s).schedules = s.schedules := by
  induction ops with
  | nil => exact fun s _ => ⟨rfl, rfl⟩
  | cons op ops ih =>
    intro s hops
    have hrest : ∀ o ∈ ops, o.isPensionerUpdate = true :=
      fun o ho => hops o (List.mem_cons_of_mem op ho)
    have hop := hops op (List.mem_cons_self op ops)
    cases op with
    | createSchedule req => simp [AdminOp.isPensionerUpdate] at hop
    | reconcile now cf => simp [AdminOp.isPensionerUpdate] at hop
    | updateStatus today pid req =>
      obtain ⟨f1, _, f3, _, _⟩ := update_pensioner_status_frame today pid req s
      obtain ⟨g1, g2⟩ := ih (AdminOp.apply (.updateStatus today pid req) s) hrest
      exact ⟨g1.trans f1, g2.trans f3⟩
    | updatePayout pid amt =>
      obtain ⟨f1, _, f3, _, _⟩ := update_pensioner_payout_frame pid amt s
      obtain ⟨g1, g2⟩ := ih (AdminOp.apply (.updatePayout pid amt) s) hrest
      exact ⟨g1.trans f1, g2.trans f3⟩

theorem floatIfTruthy_eq (a : Option Rat) :
    floatIfTruthy a = if a = some 0 ∨ a = none then none else a := by
  cases a with
  | none => simp [floatIfTruthy]
  | some x =>
    by_cases hx : x = 0
    · subst hx; simp [floatIfTruthy]
    · simp [floatIfTruthy, hx]

/-- **C9**: for every pensioner whose stored `payout_amount` is exactly 0,
the profile read and the admin pensioner listing report `payout_amount` as
null — the same value as when no amount is set — and a number is reported
only when the stored amount is non-null and nonzero. -/
theorem zero_payout_amount_serialized_as_null (db : DB) :
    (∀ pid p, db.pensioners.find? (fun q => q.id == pid) = some p →
      ∃ e, get_profile pid db = some e ∧
        e.payout_amount =
          (if p.payout_amount = some 0 ∨ p.payout_amount = none then none
           else p.payout_amount)) ∧
    (∀ p ∈ db.pensioners, p.status = "approved" →
      ∃ e ∈ get_approved_pensioners db, e.id = p.id ∧
        e.payout_amount =
          (if p.payout_amount = some 0 ∨ p.payout_amount = none then none
           else p.payout_amount)) := by
  constructor
  · intro pid p hfind
    refine ⟨⟨p.id, p.fullname, p.senior_citizen_id,
      floatIfTruthy p.payout_amount, p.status⟩, ?_, floatIfTruthy_eq p.payout_amount⟩
    simp [get_profile, hfind]
  · intro p hp hst
    have hmem : p ∈ db.pensioners.filter (fun q => q.status == "approved") :=
      List.mem_filter.mpr ⟨hp, by simp [hst]⟩
    exact ⟨_, List.mem_map_of_mem _ hmem, rfl, floatIfTruthy_eq p.payout_amount⟩

/-- Witness for C9: the sample approved pensioner with stored amount `0`
is reported with a null `payout_amount` by the profile read. -/
theorem zero_payout_amount_serialized_as_null_witness :
    sampleDB.pensioners.find? (fun q => q.id == 3) = some samplePensionerC ∧
    samplePensionerC.payout_amount = some 0 ∧
    ∃ e, get_profile 3 sampleDB = some e ∧ e.payout_amount = none := by
  refine ⟨by decide, by decide, ?_⟩
  obtain ⟨e, he, hv⟩ :=
    (zero_payout_amount_serialized_as_null sampleDB).1 3 samplePensionerC (by decide)
  exact ⟨e, he, by rw [hv]; decide⟩

/-- **C10**: every successful call of the pensioner status-update route —
for any of the statuses `pending`, `approved`, `rejected` — overwrites the
pensioner's `created_at` with the current date (`date.today()`), so
`created_at` is not preserved across status transitions. -/
theorem update_status_overwrites_created_at {today : PDate} {pid : Nat}
    {req : StatusRequest} {db db' : DB} {r : UpdateResult}
    (h : update_pensioner_status today pid req db = (r, db'))
    (hok : r = UpdateResult.ok) :
    ∀ q ∈ db'.pensioners, q.id = pid → q.created_at = ⟨today, 0⟩ := by
  subst hok
  unfold update_pensioner_status at h
  split at h
  · simp at h
  · split at h
    · simp at h
    · split at h
      · split at h
        · simp at h
        · simp only [Prod.mk.injEq] at h
          obtain ⟨-, h2⟩ := h
          subst h2
          intro q hq hid
          obtain ⟨p0, hp0, hupd⟩ := List.mem_map.mp hq
          by_cases hb : (p0.id == pid) = true
          · rw [if_pos hb] at hupd
            subst hupd
            rfl
          · rw [if_neg hb] at hupd
            subst hupd
            exact absurd (by simp [hid]) hb
      · simp at h

/-- Witness for C10: approving the sample pending pensioner stamps
`created_at` with the call date. -/
theorem update_status_overwrites_created_at_witness :
    update_pensioner_status ⟨2025, 2, 2⟩ 2
        ⟨some "approved", some (some 500)⟩ sampleDB =
      (UpdateResult.ok,
       (update_pensioner_status ⟨2025, 2, 2⟩ 2
          ⟨some "approved", some (some 500)⟩ sampleDB).2) ∧
    ∀ q ∈ (update_pensioner_status ⟨2025, 2, 2⟩ 2
        ⟨some "approved", some (some 500)⟩ sampleDB).2.pensioners,
      q.id = 2 → q.created_at = ⟨⟨2025, 2, 2⟩, 0⟩ :=
  ⟨by decide,
   @update_status_overwrites_created_at ⟨2025, 2, 2⟩ 2
     ⟨some "approved", some (some 500)⟩ sampleDB
     (update_pensioner_status ⟨2025, 2, 2⟩ 2
       ⟨some "approved", some (some 500)⟩ sampleDB).2
     UpdateResult.ok (by decide) rfl⟩

/-- **C7**: a missing required field, or a `payout_date` that fails
`YYYY-MM-DD` parsing, or a `start_time`/`end_time` that fails 24-hour
`HH:MM` parsing, makes `create_schedule_payout` return the 400 validation
error with the database unchanged — no `SchedulePayout`, `PaymentHistory`
or `Notification` row is written. -/
theorem invalid_schedule_request_rejected {req : ScheduleRequest} {db : DB}
    (h : req.payout_date = none ∨ req.payout_location = none ∨
         req.start_time = none ∨ req.end_time = none ∨
         (∃ s, req.payout_date = some s ∧ convert_to_date s = none) ∨
         (∃ s, req.start_time = some s ∧ parse_hhmm s = none) ∨
         (∃ s, req.end_time = some s ∧ parse_hhmm s = none)) :
    create_schedule_payout req db = (CreateScheduleResult.badRequest, db) := by
  obtain ⟨pdo, loco, sto, eto⟩ := req
  cases pdo with
  | none => rfl
  | some pd_s =>
  cases loco with
  | none => rfl
  | some loc =>
  cases sto with
  | none => rfl
  | some st_s =>
  cases eto with
  | none => rfl
  | some et_s =>
  rcases h with h | h | h | h | ⟨s, hs, hc⟩ | ⟨s, hs, hc⟩ | ⟨s, hs, hc⟩
  · exact absurd h (by simp)
  · exact absurd h (by simp)
  · exact absurd h (by simp)
  · exact absurd h (by simp)
  · obtain rfl : pd_s = s := by injection hs
    simp [create_schedule_payout, hc]
  · obtain rfl : st_s = s := by injection hs
    cases hc0 : convert_to_date pd_s with
    | none => simp [create_schedule_payout, hc0]
    | some pd => simp [create_schedule_payout, hc0, hc]
  · obtain rfl : et_s = s := by injection hs
    cases hc0 : convert_to_date pd_s with
    | none => simp [create_schedule_payout, hc0]
    | some pd =>
      cases hc1 : parse_hhmm st_s with
      | none => simp [create_schedule_payout, hc0, hc1]
      | some st => simp [create_schedule_payout, hc0, hc1, hc]

/-- Witness for C7: month 13 fails to parse, the call 400s and writes
nothing. -/
theorem invalid_schedule_request_rejected_witness :
    (∃ s, badDateReq.payout_date = some s ∧ convert_to_date s = none) ∧
    create_schedule_payout badDateReq sampleDB =
      (CreateScheduleResult.badRequest, sampleDB) :=
  ⟨⟨"2025-13-01", rfl, by decide⟩,
   invalid_schedule_request_rejected
     (Or.inr (Or.inr (Or.inr (Or.inr (Or.inl ⟨"2025-13-01", rfl, by decide⟩)))))⟩

/-- **C8**: a persistence failure inside the reconciler's batch update is
caught inside `update_released_payout` (the pending changes are rolled
back and only logged), and the surrounding schedule-listing read still
completes with its normal 200 listing over the unchanged state. -/
theorem reconciliation_failure_swallowed (now : PDateTime) (db : DB) :
    update_released_payout now true db = (db, false) ∧
    get_schedule_payouts now true true db =
      (ListResult.listing (db.schedules.map (fun s =>
        { schedule_id := s.schedule_id, payout_date := s.payout_date.dateOf,
          payout_location := s.payout_location, start_time := s.start_time,
          status := s.status, total_pensioners := db.pensioners.length,
          end_time := s.end_time })), db) := by
  have h1 : update_released_payout now true db = (db, false) := by
    simp only [update_released_payout]
    by_cases he : (List.filter (fun s => decide (PDateTime.Lt s.payout_date now))
        db.schedules).isEmpty = true
    · rw [if_pos he]
    · rw [if_neg he, if_true]
  refine ⟨h1, ?_⟩
  simp only [get_schedule_payouts, h1]
  rw [if_true]

/-- **C4 counterexample**: on the payout day itself the payments-history
read reports `"released"` although the payout date is not strictly before
the current date, refuting the claimed strict-`<` derivation. -/
theorem payment_status_on_payout_day_counterexample :
    ∃ e ∈ (get_payments ⟨2025, 1, 10⟩ 1 sampleDB1).getD [],
      e.status = "released" ∧ ¬ PDate.Lt e.payout_date ⟨2025, 1, 10⟩ := by
  decide

/-- **C4** (amended): a payments-history row is reported `"released"` iff
the parent schedule's payout date is on or before the current date (the
source compares `payout_date > today`, so the flip happens on the payout
day itself, not strictly after it), independent of any persisted status
column. -/
theorem payment_status_released_iff_on_or_before_today
    {today : PDate} {pid : Nat} {db : DB} {es : List PaymentEntry}
    (h : get_payments today pid db = some es) :
    ∀ e ∈ es, (e.status = "released" ↔ PDate.Le e.payout_date today) ∧
              (e.status = "scheduled" ↔ PDate.Lt today e.payout_date) := by
  unfold get_payments at h
  split at h
  · simp at h
  · rw [Option.some.injEq] at h
    subst h
    intro e he
    obtain ⟨r, hr, hmap⟩ := List.mem_filterMap.mp he
    obtain ⟨s, hfind, he2⟩ := Option.map_eq_some'.mp hmap
    subst he2
    dsimp only
    by_cases hlt : PDate.Lt today s.payout_date.dateOf
    · rw [if_pos hlt]
      constructor
      · constructor
        · intro habs; exact absurd habs (by decide)
        · intro hle
          exact absurd hlt ((PDate.not_lt_iff_le today s.payout_date.dateOf).mpr hle)
      · exact ⟨fun _ => hlt, fun _ => rfl⟩
    · rw [if_neg hlt]
      constructor
      · exact ⟨fun _ => (PDate.not_lt_iff_le today s.payout_date.dateOf).mp hlt,
          fun _ => rfl⟩
      · constructor
        · intro habs; exact absurd habs (by decide)
        · intro hl; exact absurd hl hlt

/-- Witness for the amended C4: the day after the sample payout date every
row of the sample pensioner's history satisfies both equivalences. -/
theorem payment_status_released_iff_witness :
    get_payments ⟨2025, 1, 11⟩ 1 sampleDB1 =
      some ((get_payments ⟨2025, 1, 11⟩ 1 sampleDB1).getD []) ∧
    ∀ e ∈ (get_payments ⟨2025, 1, 11⟩ 1 sampleDB1).getD [],
      (e.status = "released" ↔ PDate.Le e.payout_date ⟨2025, 1, 11⟩) ∧
      (e.status = "scheduled" ↔ PDate.Lt ⟨2025, 1, 11⟩ e.payout_date) :=
  ⟨by decide,
   @payment_status_released_iff_on_or_before_today ⟨2025, 1, 11⟩ 1 sampleDB1
     ((get_payments ⟨2025, 1, 11⟩ 1 sampleDB1).getD []) (by decide)⟩

/-- **C5 counterexample**: after one reconciliation pass every past-dated
schedule is already `"released"`, so no row requires change; yet a second
call still returns commit-performed (`true`), refuting "no commit occurs
when no row requires change". -/
theorem reconcile_second_call_still_commits :
    (∀ s ∈ sampleReconciled.schedules, s.status = "released") ∧
    update_released_payout sampleNow false sampleReconciled =
      (sampleReconciled, true) := by
  decide

/-- **C5** (amended): the reconciler marks `released` every `SchedulePayout`
with `payoutDate < now` regardless of its current status (a state-level
no-op for rows already released), leaves every other row and table
unchanged, and a second pass changes no state; but `db.session.commit()` is
performed whenever at least one row has `payoutDate < now` — even when no
row changed — so "no commit" holds only when no row is past-dated. -/
theorem update_released_payout_behaviour (now : PDateTime) (db : DB) :
    (update_released_payout now false db).1.schedules =
      db.schedules.map (fun s =>
        if PDateTime.Lt s.payout_date now then
          { s with status := "released" } else s) ∧
    (update_released_payout now false db).1.pensioners = db.pensioners ∧
    (update_released_payout now false db).1.payments = db.payments ∧
    (update_released_payout now false db).1.notifications = db.notifications ∧
    (update_released_payout now false
        (update_released_payout now false db).1).1 =
      (update_released_payout now false db).1 ∧
    (update_released_payout now false db).2 =
      db.schedules.any (fun s => decide (PDateTime.Lt s.payout_date now)) := by
  by_cases he : (List.filter (fun s => decide (PDateTime.Lt s.payout_date now))
      db.schedules).isEmpty = true
  · have hres : update_released_payout now false db = (db, false) := by
      simp only [update_released_payout]
      rw [if_pos he]
    have hno : ∀ s ∈ db.schedules, ¬ PDateTime.Lt s.payout_date now := by
      intro s hs
      have := List.filter_eq_nil_iff.mp (List.isEmpty_iff.mp he) s hs
      simpa using this
    refine ⟨?_, by rw [hres], by rw [hres], by rw [hres], ?_, ?_⟩
    · rw [hres]
      exact ((List.map_congr_left
        (fun s hs => if_neg (hno s hs))).trans (List.map_id _)).symm
    · rw [hres, hres]
    · rw [hres]
      symm
      exact List.any_eq_false.mpr (fun s hs => by simpa using hno s hs)
  · have hres : update_released_payout now false db =
        ({ db with schedules := db.schedules.map (fun s =>
            if PDateTime.Lt s.payout_date now then
              { s with status := "released" } else s) }, true) := by
      simp only [update_released_payout]
      rw [if_neg he, if_neg Bool.false_ne_true]
    have hne : List.filter (fun s => decide (PDateTime.Lt s.payout_date now))
        db.schedules ≠ [] := fun hnil => he (List.isEmpty_iff.mpr hnil)
    obtain ⟨x, hx⟩ := List.exists_mem_of_ne_nil _ hne
    obtain ⟨hx1, hx2⟩ := List.mem_filter.mp hx
    refine ⟨by rw [hres], by rw [hres], by rw [hres], by rw [hres], ?_, ?_⟩
    · rw [hres]
      have hfx : (if PDateTime.Lt x.payout_date now then
          { x with status := "released" } else x) ∈
          db.schedules.map (fun s =>
            if PDateTime.Lt s.payout_date now then
              { s with status := "released" } else s) :=
        List.mem_map_of_mem _ hx1
      have hfx2 : decide (PDateTime.Lt (if PDateTime.Lt x.payout_date now then
          { x with status := "released" } else x).payout_date now) = true := by
        split <;> exact hx2
      have hne2 : List.filter (fun s => decide (PDateTime.Lt s.payout_date now))
          (db.schedules.map (fun s =>
            if PDateTime.Lt s.payout_date now then
              { s with status := "released" } else s)) ≠ [] := by
        intro hnil
        exact absurd hfx2 (by simpa using List.filter_eq_nil_iff.mp hnil _ hfx)
      have he2 : (List.filter (fun s => decide (PDateTime.Lt s.payout_date now))
          (db.schedules.map (fun s =>
            if PDateTime.Lt s.payout_date now then
              { s with status := "released" } else s))).isEmpty ≠ true :=
        fun habs => hne2 (List.isEmpty_iff.mp habs)
      simp only [update_released_payout]
      rw [if_neg he2, if_neg Bool.false_ne_true]
      have hmap : (db.schedules.map (fun s =>
          if PDateTime.Lt s.payout_date now then
            { s with status := "released" } else s)).map (fun s =>
          if PDateTime.Lt s.payout_date now then
            { s with status := "released" } else s) =
        db.schedules.map (fun s =>
          if PDateTime.Lt s.payout_date now then
            { s with status := "released" } else s) := by
        rw [List.map_map]
        refine List.map_congr_left (fun s _ => ?_)
        simp only [Function.comp_apply]
        by_cases hl : PDateTime.Lt s.payout_date now
        · rw [if_pos hl, if_pos hl]
        · rw [if_neg hl, if_neg hl]
      rw [hmap]
    · rw [hres]
      symm
      exact List.any_eq_true.mpr ⟨x, hx1, hx2⟩

/-- **C2**: evaluation of the code at the failing input — with one approved
pensioner whose `payout_amount` was never set, the fan-out commit fails on
the NOT NULL constraint, yet the `SchedulePayout` row committed earlier in
the same call survives and a subsequent schedule-listing read shows it, so
the call is not atomic. -/
theorem create_schedule_fanout_failure_keeps_schedule_row :
    (create_schedule_payout sampleReq nullAmountDB).1 =
      CreateScheduleResult.serverError ∧
    (create_schedule_payout sampleReq nullAmountDB).2.schedules.length = 1 ∧
    (create_schedule_payout sampleReq nullAmountDB).2.payments = [] ∧
    (create_schedule_payout sampleReq nullAmountDB).2.notifications = [] ∧
    ((get_schedule_payouts ⟨⟨2025, 1, 1⟩, 0⟩ true false
        (create_schedule_payout sampleReq nullAmountDB).2).1).entries.length
      = 1 := by
  decide

theorem create_schedule_created_inv {req : ScheduleRequest} {db db1 : DB}
    {sid : Nat} {p : Pensioner} (hwf : db.WF) (hp : p ∈ db.pensioners)
    (hnap : p.status ≠ "approved")
    (h : create_schedule_payout req db = (.created sid, db1)) :
    db1.WF ∧ sid < db1.nextScheduleId ∧
    (∀ r ∈ db1.payments, r.pensioner_id = p.id → r.schedule_id ≠ sid) ∧
    (∀ n ∈ db1.notifications, n.pensioner_id = p.id → n.from_schedule ≠ sid) := by
  obtain ⟨hsid, pd, loc, st, et, -, -, -, -, hdb⟩ := create_schedule_payout_created h
  subst hsid
  subst hdb
  obtain ⟨hnd, hsch, hpid, hnid⟩ := hwf
  refine ⟨⟨hnd, ?_, ?_, ?_⟩, Nat.lt_succ_self _, ?_, ?_⟩
  · intro s hs
    rcases List.mem_append.mp hs with h1 | h1
    · exact Nat.lt_succ_of_lt (hsch s h1)
    · rcases List.mem_singleton.mp h1 with rfl
      exact Nat.lt_succ_self _
  · intro r hr
    rcases List.mem_append.mp hr with h1 | h1
    · exact Nat.lt_succ_of_lt (hpid r h1)
    · obtain ⟨q, -, -, hres, -, -⟩ := mem_mkPayments h1
      rw [hres]
      exact Nat.lt_succ_self _
  · intro n hn
    rcases List.mem_append.mp hn with h1 | h1
    · exact Nat.lt_succ_of_lt (hnid n h1)
    · obtain ⟨q, -, -, hres⟩ := mem_mkNotifications h1
      rw [hres]
      exact Nat.lt_succ_self _
  · intro r hr hrp
    rcases List.mem_append.mp hr with h1 | h1
    · exact Nat.ne_of_lt (hpid r h1)
    · obtain ⟨q, hqf, hqi, -, -, -⟩ := mem_mkPayments h1
      obtain ⟨hq, hqs⟩ := List.mem_filter.mp hqf
      have hpq : p = q :=
        List.inj_on_of_nodup_map hnd hp hq (by rw [← hrp, hqi])
      rw [hpq] at hnap
      exact absurd (by simpa using hqs) hnap
  · intro n hn hnp
    rcases List.mem_append.mp hn with h1 | h1
    · exact Nat.ne_of_lt (hnid n h1)
    · obtain ⟨q, hqf, hqi, -⟩ := mem_mkNotifications h1
      obtain ⟨hq, hqs⟩ := List.mem_filter.mp hqf
      have hpq : p = q :=
        List.inj_on_of_nodup_map hnd hp hq (by rw [← hnp, hqi])
      rw [hpq] at hnap
      exact absurd (by simpa using hqs) hnap

/-- **C3**: after a successful `create_schedule_payout` call, the number of
`PaymentHistory` rows for the new schedule and the number of `Notification`
rows from its fan-out both equal the number of pensioners approved at the
instant of the call, and pensioners with any other status receive no rows
for that schedule. -/
theorem fanout_completeness {req : ScheduleRequest} {db db' : DB} {sid : Nat}
    (hwf : db.WF)
    (h : create_schedule_payout req db = (.created sid, db')) :
    (db'.payments.filter (fun r => r.schedule_id == sid)).length =
      (db.pensioners.filter (fun p => p.status == "approved")).length ∧
    (db'.notifications.filter (fun n => n.from_schedule == sid)).length =
      (db.pensioners.filter (fun p => p.status == "approved")).length ∧
    ∀ p ∈ db.pensioners, p.status ≠ "approved" →
      (∀ r ∈ db'.payments, r.pensioner_id = p.id → r.schedule_id ≠ sid) ∧
      (∀ n ∈ db'.notifications, n.pensioner_id = p.id → n.from_schedule ≠ sid) := by
  refine ⟨?_, ?_, fun p hp hnap =>
    ⟨(create_schedule_created_inv hwf hp hnap h).2.2.1,
     (create_schedule_created_inv hwf hp hnap h).2.2.2⟩⟩
  · obtain ⟨hsid, pd, loc, st, et, -, -, -, -, hdb⟩ := create_schedule_payout_created h
    subst hsid
    subst hdb
    obtain ⟨-, -, hpid, -⟩ := hwf
    dsimp only
    rw [List.filter_append]
    have hold : List.filter (fun r => r.schedule_id == db.nextScheduleId)
        db.payments = [] := by
      refine List.filter_eq_nil_iff.mpr (fun r hr => ?_)
      simp only [beq_iff_eq]
      exact Nat.ne_of_lt (hpid r hr)
    have hnew : List.filter (fun r => r.schedule_id == db.nextScheduleId)
        (mkPayments db.nextScheduleId db.nextPaymentId
          (db.pensioners.filter (fun p => p.status == "approved"))) =
        mkPayments db.nextScheduleId db.nextPaymentId
          (db.pensioners.filter (fun p => p.status == "approved")) := by
      refine List.filter_eq_self.mpr (fun r hr => ?_)
      obtain ⟨q, -, -, hres, -, -⟩ := mem_mkPayments hr
      simp [hres]
    rw [hold, hnew, List.nil_append, mkPayments_length]
  · obtain ⟨hsid, pd, loc, st, et, -, -, -, -, hdb⟩ := create_schedule_payout_created h
    subst hsid
    subst hdb
    obtain ⟨-, -, -, hnid⟩ := hwf
    dsimp only
    rw [List.filter_append]
    have hold : List.filter (fun n => n.from_schedule == db.nextScheduleId)
        db.notifications = [] := by
      refine List.filter_eq_nil_iff.mpr (fun n hn => ?_)
      simp only [beq_iff_eq]
      exact Nat.ne_of_lt (hnid n hn)
    have hnew : List.filter (fun n => n.from_schedule == db.nextScheduleId)
        (mkNotifications db.nextScheduleId pd loc st et db.nextNotificationId
          (db.pensioners.filter (fun p => p.status == "approved"))) =
        mkNotifications db.nextScheduleId pd loc st et db.nextNotificationId
          (db.pensioners.filter (fun p => p.status == "approved")) := by
      refine List.filter_eq_self.mpr (fun n hn => ?_)
      obtain ⟨q, -, -, hres⟩ := mem_mkNotifications hn
      simp [hres]
    rw [hold, hnew, List.nil_append, mkNotifications_length]

/-- Witness for C3: the sample call with two approved pensioners creates
exactly two payment rows and two notification rows for the new schedule. -/
theorem fanout_completeness_witness :
    sampleDB.WF ∧
    create_schedule_payout sampleReq sampleDB =
      (CreateScheduleResult.created 1, sampleDB1) ∧
    (sampleDB1.payments.filter (fun r => r.schedule_id == 1)).length = 2 ∧
    (sampleDB1.notifications.filter (fun n => n.from_schedule == 1)).length = 2 := by
  refine ⟨by decide, rfl, ?_, ?_⟩
  · exact ((@fanout_completeness sampleReq sampleDB sampleDB1 1
      (by decide) rfl).1).trans (by decide)
  · exact ((@fanout_completeness sampleReq sampleDB sampleDB1 1
      (by decide) rfl).2.1).trans (by decide)

/-- **C1**: for a schedule created successfully and a pensioner approved at
that moment, the `PaymentHistory` row for that (pensioner, schedule) pair
stores the pensioner's `payout_amount` as of creation time; any later
sequence of `update_pensioner_payout` / `update_pensioner_status` calls
leaves the stored rows untouched; and the payments-history view emits the
stored snapshot — never the pensioner's current amount — for that
schedule's row. -/
theorem snapshot_invariant {req : ScheduleRequest} {db db1 : DB} {sid : Nat}
    {p : Pensioner} (hwf : db.WF)
    (h : create_schedule_payout req db = (.created sid, db1))
    (hp : p ∈ db.pensioners) (hap : p.status = "approved") :
    (∃ r ∈ db1.payments, r.pensioner_id = p.id ∧ r.schedule_id = sid ∧
        r.payout_amount = p.payout_amount) ∧
    (∀ r ∈ db1.payments, r.pensioner_id = p.id → r.schedule_id = sid →
        r.payout_amount = p.payout_amount) ∧
    (∀ ops : List AdminOp, (∀ op ∈ ops, op.isPensionerUpdate = true) →
      (execOps ops db1).payments = db1.payments ∧
      (∀ today es, get_payments today p.id (execOps ops db1) = some es →
        ∀ e ∈ es, e.schedule_id = sid → e.payout_amount = p.payout_amount)) := by
  obtain ⟨hsid, pd, loc, st, et, -, -, -, -, hdb⟩ := create_schedule_payout_created h
  subst hsid
  subst hdb
  obtain ⟨hnd, hsch, hpid, hnid⟩ := hwf
  have hpf : p ∈ db.pensioners.filter (fun q => q.status == "approved") :=
    List.mem_filter.mpr ⟨hp, by simp [hap]⟩
  have huniq : ∀ r ∈ db.payments ++
      mkPayments db.nextScheduleId db.nextPaymentId
        (db.pensioners.filter (fun q => q.status == "approved")),
      r.pensioner_id = p.id → r.schedule_id = db.nextScheduleId →
      r.payout_amount = p.payout_amount := by
    intro r hr hrp hrs
    rcases List.mem_append.mp hr with h1 | h1
    · exact absurd hrs (Nat.ne_of_lt (hpid r h1))
    · obtain ⟨q, hqf, hqi, -, hqa, -⟩ := mem_mkPayments h1
      obtain ⟨hq, -⟩ := List.mem_filter.mp hqf
      have hpq : p = q :=
        List.inj_on_of_nodup_map hnd hp hq (by rw [← hrp, hqi])
      rw [hqa, ← hpq]
  refine ⟨?_, huniq, ?_⟩
  · obtain ⟨r, hr, hri, hrs, hra⟩ :=
      @mkPayments_exists db.nextScheduleId
        (db.pensioners.filter (fun q => q.status == "approved")) p hpf
        db.nextPaymentId
    exact ⟨r, List.mem_append.mpr (Or.inr hr), hri, hrs, hra⟩
  · intro ops hops
    obtain ⟨hpay, -⟩ := execOps_update_frame ops _ hops
    refine ⟨hpay, ?_⟩
    intro today es hes e he hesid
    unfold get_payments at hes
    split at hes
    · exact absurd hes (by simp)
    · rw [Option.some.injEq] at hes
      subst hes
      obtain ⟨r, hrf, hmap⟩ := List.mem_filterMap.mp he
      obtain ⟨hr, hrid⟩ := List.mem_filter.mp hrf
      obtain ⟨s, -, he2⟩ := Option.map_eq_some'.mp hmap
      subst he2
      dsimp only at hesid ⊢
      rw [hpay] at hr
      exact huniq r hr (by simpa using hrid) hesid

/-- Witness for C1: after creating the sample schedule and then changing
the first pensioner's amount to 2000, the stored payment rows are
untouched and the snapshot row still carries 1000. -/
theorem snapshot_invariant_witness :
    sampleDB.WF ∧ samplePensionerA ∈ sampleDB.pensioners ∧
    samplePensionerA.status = "approved" ∧
    (∃ r ∈ sampleDB1.payments, r.pensioner_id = samplePensionerA.id ∧
       r.schedule_id = 1 ∧ r.payout_amount = some 1000) ∧
    (execOps [AdminOp.updatePayout 1 (some (some 2000))] sampleDB1).payments =
      sampleDB1.payments := by
  have hmain := @snapshot_invariant sampleReq sampleDB sampleDB1 1
    samplePensionerA (by decide) rfl (by decide) rfl
  exact ⟨by decide, by decide, rfl, hmain.1,
    (hmain.2.2 [AdminOp.updatePayout 1 (some (some 2000))] (by decide)).1⟩

/-- **C6**: no operation ever creates a `PaymentHistory` or `Notification`
row linking a pensioner who was not approved at a schedule's creation to
that schedule — approving the pensioner later (or any other sequence of
operations, including further schedule creations) produces rows only for
other schedules, never retroactively for this one. -/
theorem no_retroactive_fanout {req : ScheduleRequest} {db db1 : DB}
    {sid : Nat} {p : Pensioner} (hwf : db.WF) (hp : p ∈ db.pensioners)
    (hnap : p.status ≠ "approved")
    (h : create_schedule_payout req db = (.created sid, db1)) :
    ∀ ops : List AdminOp,
      (∀ r ∈ (execOps ops db1).payments,
        r.pensioner_id = p.id → r.schedule_id ≠ sid) ∧
      (∀ n ∈ (execOps ops db1).notifications,
        n.pensioner_id = p.id → n.from_schedule ≠ sid) := by
  obtain ⟨h1, h2, h3, h4⟩ := create_schedule_created_inv hwf hp hnap h
  intro ops
  obtain ⟨-, -, g3, g4⟩ := execOps_preserves_inv ops db1 h1 h2 h3 h4
  exact ⟨g3, g4⟩

/-- Witness for C6: the pending sample pensioner is approved after the
sample schedule is created; the resulting state still has no payment row
linking them to that schedule. -/
theorem no_retroactive_fanout_witness :
    sampleDB.WF ∧ samplePensionerB ∈ sampleDB.pensioners ∧
    samplePensionerB.status ≠ "approved" ∧
    ∀ r ∈ (execOps [AdminOp.updateStatus ⟨2025, 2, 1⟩ 2
        ⟨some "approved", some (some 800)⟩] sampleDB1).payments,
      r.pensioner_id = samplePensionerB.id → r.schedule_id ≠ 1 :=
  ⟨by decide, by decide, by decide,
   ((@no_retroactive_fanout sampleReq sampleDB sampleDB1 1 samplePensionerB
      (by decide) (by decide) (by decide) rfl)
     [AdminOp.updateStatus ⟨2025, 2, 1⟩ 2 ⟨some "approved", some (some 800)⟩]).1⟩
